import Mathlib

/-!
Shallow embedding of `src/lib.rs` of the wasm-game-of-life repository.

The Rust source defines a `Cell` enum (`Dead = 0`, `Alive = 1`), a `Universe`
struct (`width : u32`, `height : u32`, `cells : Vec<Cell>`), and the methods
`get_index`, `live_neighbor_count`, `tick`, `new`, `render` (via the
`Display` impl).  Machine integers are embedded as `Nat`; all quantities in
the theorems below stay far below `2^32`, where the original `u32`
arithmetic neither wraps (release) nor panics (debug).  The `u8` neighbour
accumulator is embedded with an explicit `% 256` at each addition, exactly
where the source performs `u8` arithmetic.  Rust's panicking vector index
`self.cells[idx]` is totalised as `List.getD _ Cell.Dead`; every theorem that
depends on a cell read carries the length invariant under which the access is
in bounds, and claim C10 proves the in-bounds property itself.
-/

inductive Cell where
  | Dead
  | Alive
deriving DecidableEq, Repr

/-- Embedding of `cell as u8`: the numeric value of a cell (`Dead = 0`, `Alive = 1`). -/
def Cell.toU8 : Cell → Nat
  | Cell.Dead => 0
  | Cell.Alive => 1

structure Universe where
  width : Nat
  height : Nat
  cells : List Cell
deriving DecidableEq, Repr

/-- Embedding of `Universe::get_index`: `(row * self.width + column) as usize`.
The source performs no bounds check whatsoever.  The source computes in
`u32`; every application of `get_index` in the theorems below keeps
`row * width + column` below `2^32` (rows below `height` and, in the C6
theorems, the values `0 * width + width` and `1 * width + 0`, both equal to
the `u32` value `width`), where `u32` and `Nat` arithmetic agree. -/
def Universe.get_index (u : Universe) (row column : Nat) : Nat :=
  row * u.width + column

/-- Body of the inner `delta_column` loop of `Universe::live_neighbor_count`,
verbatim from the source: the skip of the `(0,0)` delta pair, then
`count += self.cells[idx] as u8` in `u8` arithmetic (hence `% 256`).
Note `neighbour_column` is computed from `delta_row` (source line 56),
exactly as the source does. -/
def countStep (u : Universe) (row column delta_row : Nat)
    (count delta_column : Nat) : Nat :=
  if delta_row = 0 ∧ delta_column = 0 then count
  else
    (count +
      (u.cells.getD
        (u.get_index ((row + delta_row) % u.height)
          ((column + delta_row) % u.width)) Cell.Dead).toU8) % 256

/-- The inner `delta_column` loop of `live_neighbor_count`. -/
def innerLoop (u : Universe) (row column delta_row count : Nat) : Nat :=
  [u.width - 1, 0, 1].foldl (countStep u row column delta_row) count

/-- Embedding of `Universe::live_neighbor_count`: iterate `delta_row` over
`[height - 1, 0, 1]` and `delta_column` over `[width - 1, 0, 1]`,
accumulating with `countStep`. -/
def Universe.live_neighbor_count (u : Universe) (row column : Nat) : Nat :=
  [u.height - 1, 0, 1].foldl
    (fun count delta_row => innerLoop u row column delta_row count)
    0

/-- The same loop body with an unbounded accumulator (no `% 256`): used to
express that the `u8` accumulator of the source never overflows. -/
def countStepN (u : Universe) (row column delta_row : Nat)
    (count delta_column : Nat) : Nat :=
  if delta_row = 0 ∧ delta_column = 0 then count
  else
    count +
      (u.cells.getD
        (u.get_index ((row + delta_row) % u.height)
          ((column + delta_row) % u.width)) Cell.Dead).toU8

/-- The inner `delta_column` loop with an unbounded accumulator. -/
def innerLoopN (u : Universe) (row column delta_row count : Nat) : Nat :=
  [u.width - 1, 0, 1].foldl (countStepN u row column delta_row) count

/-- The `live_neighbor_count` computation with an unbounded accumulator. -/
def Universe.live_neighbor_count_nowrap (u : Universe) (row column : Nat) : Nat :=
  [u.height - 1, 0, 1].foldl
    (fun count delta_row => innerLoopN u row column delta_row count)
    0

/-- The flat indices at which `live_neighbor_count` reads `self.cells`,
one per non-skipped `(delta_row, delta_column)` loop iteration, in loop
order (the index expression is the source's, so it depends only on
`delta_row`). -/
def Universe.accessedIndices (u : Universe) (row column : Nat) : List Nat :=
  ([u.height - 1, 0, 1].map (fun delta_row =>
    [u.width - 1, 0, 1].filterMap (fun delta_column =>
      if delta_row = 0 ∧ delta_column = 0 then none
      else some (u.get_index ((row + delta_row) % u.height)
        ((column + delta_row) % u.width))))).flatten

/-- Comparison definition following the words of the specification (claim
C1): the number of `Alive` cells among the 8 toroidal neighbours, i.e. the
sum over `delta_row ∈ {height-1, 0, 1}` and `delta_column ∈ {width-1, 0, 1}`
excluding the `(0,0)` pair of 1 for each `Alive` cell at
`((row + delta_row) mod height, (column + delta_column) mod width)`. -/
def live_neighbor_count_specFormula (u : Universe) (row column : Nat) : Nat :=
  [u.height - 1, 0, 1].foldl
    (fun acc delta_row =>
      [u.width - 1, 0, 1].foldl
        (fun acc2 delta_column =>
          if delta_row = 0 ∧ delta_column = 0 then acc2
          else
            acc2 +
              (if u.cells.getD
                  (u.get_index ((row + delta_row) % u.height)
                    ((column + delta_column) % u.width)) Cell.Dead =
                  Cell.Alive then 1 else 0))
        acc)
    0

/-- The `match (cell, live_neighbors)` of `Universe::tick`, arm by arm. -/
def nextCellRule (cell : Cell) (live_neighbors : Nat) : Cell :=
  if cell = Cell.Alive ∧ live_neighbors < 2 then Cell.Dead
  else if cell = Cell.Alive ∧ (live_neighbors = 2 ∨ live_neighbors = 3) then Cell.Alive
  else if cell = Cell.Alive ∧ live_neighbors > 3 then Cell.Dead
  else if cell = Cell.Dead ∧ live_neighbors = 3 then Cell.Alive
  else cell

/-- The next state the loop body of `tick` computes for `(row, column)`:
`cell` and `live_neighbors` are both read from the pre-tick `self.cells`. -/
def Universe.nextCellAt (u : Universe) (row column : Nat) : Cell :=
  nextCellRule (u.cells.getD (u.get_index row column) Cell.Dead)
    (u.live_neighbor_count row column)

/-- Body of the inner `column` loop of `tick`:
`next[idx] = next_cell` (a no-op when `idx` is out of bounds, which never
happens under the `cells.length = width * height` invariant). -/
def writeCell (u : Universe) (row : Nat) (next : List Cell) (column : Nat) :
    List Cell :=
  next.set (u.get_index row column) (u.nextCellAt row column)

/-- The inner `column` loop of `tick` for one row. -/
def writeRow (u : Universe) (next : List Cell) (row : Nat) : List Cell :=
  (List.range u.width).foldl (writeCell u row) next

/-- Embedding of `Universe::tick`: `next` starts as a clone of `self.cells`; the double
loop writes `next[idx] = next_cell` with all reads taken from the unmodified
`self.cells`; finally `self.cells = next`. -/
def Universe.tick (u : Universe) : Universe :=
  { u with cells := (List.range u.height).foldl (writeRow u) u.cells }

/-- Embedding of `Universe::new`: a 64 × 64 universe whose flat index `i` is `Alive`
iff `i % 2 == 0 || i % 7 == 0`. -/
def Universe.new : Universe :=
  { width := 64
    height := 64
    cells :=
      (List.range (64 * 64)).map
        (fun i => if i % 2 = 0 ∨ i % 7 = 0 then Cell.Alive else Cell.Dead) }

/-- The glyph the `Display` impl prints for a cell:
`if cell == Cell::Dead { '◻' } else { '◼' }`. -/
def cellGlyph (cell : Cell) : Char :=
  if cell = Cell.Dead then '◻' else '◼'

/-- Rust's `slice::chunks`: consecutive chunks of size `n`, the last chunk
possibly shorter.  (`chunks(0)` panics in Rust; the `n = 0` branch here is
unreachable under the `0 < width` invariant of every theorem that uses it.) -/
def chunksOf (n : Nat) (l : List Cell) : List (List Cell) :=
  if h : n = 0 ∨ l = [] then []
  else l.take n :: chunksOf n (l.drop n)
termination_by l.length
decreasing_by
  push_neg at h
  simp only [List.length_drop]
  have hl : 0 < l.length := List.length_pos.mpr h.2
  omega

/-- The character sequence the `Display` impl emits: for each `width`-sized
chunk of `cells`, one glyph per cell followed by a newline (`writeln!`). -/
def renderList (width : Nat) (cells : List Cell) : List Char :=
  ((chunksOf width cells).map (fun line => line.map cellGlyph ++ ['\n'])).flatten

/-- Embedding of `Universe::render` via the `Display` impl. -/
def Universe.render (u : Universe) : String :=
  String.mk (renderList u.width u.cells)

/-- A 3 × 3 universe, only cell `(0,0)` alive. -/
def u3 : Universe :=
  { width := 3
    height := 3
    cells := [Cell.Alive, Cell.Dead, Cell.Dead, Cell.Dead, Cell.Dead,
      Cell.Dead, Cell.Dead, Cell.Dead, Cell.Dead] }

/-- A 3 × 3 universe, only cell `(0,1)` alive. -/
def u3b : Universe :=
  { width := 3
    height := 3
    cells := [Cell.Dead, Cell.Alive, Cell.Dead, Cell.Dead, Cell.Dead,
      Cell.Dead, Cell.Dead, Cell.Dead, Cell.Dead] }

/-- A 2 × 2 universe, all cells dead. -/
def u2 : Universe :=
  { width := 2
    height := 2
    cells := [Cell.Dead, Cell.Dead, Cell.Dead, Cell.Dead] }

/-! ### Helper lemmas about the neighbour-count loops -/

lemma Cell.toU8_le_one (c : Cell) : c.toU8 ≤ 1 := by
  cases c <;> simp [Cell.toU8]

lemma countStep_skip (u : Universe) (row column c : Nat) :
    countStep u row column 0 c 0 = c := by
  simp [countStep]

lemma countStepN_skip (u : Universe) (row column c : Nat) :
    countStepN u row column 0 c 0 = c := by
  simp [countStepN]

lemma countStepN_le (u : Universe) (row column dr c dc : Nat) :
    countStepN u row column dr c dc ≤ c + 1 := by
  unfold countStepN
  split
  · omega
  · have := Cell.toU8_le_one (u.cells.getD
      (u.get_index ((row + dr) % u.height) ((column + dr) % u.width)) Cell.Dead)
    omega

lemma countStep_eq_countStepN (u : Universe) (row column dr c dc : Nat)
    (hc : c ≤ 254) :
    countStep u row column dr c dc = countStepN u row column dr c dc := by
  unfold countStep countStepN
  split
  · rfl
  · have := Cell.toU8_le_one (u.cells.getD
      (u.get_index ((row + dr) % u.height) ((column + dr) % u.width)) Cell.Dead)
    omega

lemma innerLoopN_le (u : Universe) (row column dr c : Nat) :
    innerLoopN u row column dr c ≤ c + 3 := by
  unfold innerLoopN
  simp only [List.foldl_cons, List.foldl_nil]
  have h1 := countStepN_le u row column dr c (u.width - 1)
  have h2 := countStepN_le u row column dr
    (countStepN u row column dr c (u.width - 1)) 0
  have h3 := countStepN_le u row column dr
    (countStepN u row column dr (countStepN u row column dr c (u.width - 1)) 0) 1
  omega

lemma innerLoopN_zero_le (u : Universe) (row column c : Nat) :
    innerLoopN u row column 0 c ≤ c + 2 := by
  unfold innerLoopN
  simp only [List.foldl_cons, List.foldl_nil]
  rw [countStepN_skip]
  have h1 := countStepN_le u row column 0 c (u.width - 1)
  have h2 := countStepN_le u row column 0
    (countStepN u row column 0 c (u.width - 1)) 1
  omega

lemma innerLoop_eq_innerLoopN (u : Universe) (row column dr c : Nat)
    (hc : c ≤ 250) :
    innerLoop u row column dr c = innerLoopN u row column dr c := by
  unfold innerLoop innerLoopN
  simp only [List.foldl_cons, List.foldl_nil]
  have b1 := countStepN_le u row column dr c (u.width - 1)
  rw [countStep_eq_countStepN u row column dr c (u.width - 1) (by omega)]
  have b2 := countStepN_le u row column dr
    (countStepN u row column dr c (u.width - 1)) 0
  rw [countStep_eq_countStepN u row column dr
    (countStepN u row column dr c (u.width - 1)) 0 (by omega)]
  rw [countStep_eq_countStepN u row column dr
    (countStepN u row column dr (countStepN u row column dr c (u.width - 1)) 0) 1
    (by omega)]

lemma live_neighbor_count_eq_nowrap (u : Universe) (row column : Nat) :
    u.live_neighbor_count row column = u.live_neighbor_count_nowrap row column := by
  unfold Universe.live_neighbor_count Universe.live_neighbor_count_nowrap
  simp only [List.foldl_cons, List.foldl_nil]
  rw [innerLoop_eq_innerLoopN u row column (u.height - 1) 0 (by omega)]
  have b1 := innerLoopN_le u row column (u.height - 1) 0
  rw [innerLoop_eq_innerLoopN u row column 0
    (innerLoopN u row column (u.height - 1) 0) (by omega)]
  have b2 := innerLoopN_zero_le u row column
    (innerLoopN u row column (u.height - 1) 0)
  rw [innerLoop_eq_innerLoopN u row column 1
    (innerLoopN u row column 0 (innerLoopN u row column (u.height - 1) 0))
    (by omega)]

lemma live_neighbor_count_nowrap_le_eight (u : Universe) (row column : Nat) :
    u.live_neighbor_count_nowrap row column ≤ 8 := by
  unfold Universe.live_neighbor_count_nowrap
  simp only [List.foldl_cons, List.foldl_nil]
  have b1 := innerLoopN_le u row column (u.height - 1) 0
  have b2 := innerLoopN_zero_le u row column
    (innerLoopN u row column (u.height - 1) 0)
  have b3 := innerLoopN_le u row column 1
    (innerLoopN u row column 0 (innerLoopN u row column (u.height - 1) 0))
  omega

lemma live_neighbor_count_le_eight (u : Universe) (row column : Nat) :
    u.live_neighbor_count row column ≤ 8 := by
  rw [live_neighbor_count_eq_nowrap]
  exact live_neighbor_count_nowrap_le_eight u row column

lemma getD_all_dead {l : List Cell} (hdead : ∀ x ∈ l, x = Cell.Dead) (i : Nat) :
    l.getD i Cell.Dead = Cell.Dead := by
  rw [List.getD_eq_getElem?_getD]
  cases h : l[i]? with
  | none => rfl
  | some x =>
    have hx : x ∈ l := List.getElem?_mem h
    simp [hdead x hx]

lemma countStepN_all_dead (u : Universe) (hdead : ∀ x ∈ u.cells, x = Cell.Dead)
    (row column dr c dc : Nat) : countStepN u row column dr c dc = c := by
  unfold countStepN
  rw [getD_all_dead hdead]
  simp [Cell.toU8]

lemma innerLoopN_all_dead (u : Universe) (hdead : ∀ x ∈ u.cells, x = Cell.Dead)
    (row column dr c : Nat) : innerLoopN u row column dr c = c := by
  unfold innerLoopN
  simp only [List.foldl_cons, List.foldl_nil]
  rw [countStepN_all_dead u hdead, countStepN_all_dead u hdead,
    countStepN_all_dead u hdead]

lemma live_neighbor_count_all_dead (u : Universe)
    (hdead : ∀ x ∈ u.cells, x = Cell.Dead) (row column : Nat) :
    u.live_neighbor_count row column = 0 := by
  rw [live_neighbor_count_eq_nowrap]
  unfold Universe.live_neighbor_count_nowrap
  simp only [List.foldl_cons, List.foldl_nil]
  rw [innerLoopN_all_dead u hdead, innerLoopN_all_dead u hdead,
    innerLoopN_all_dead u hdead]

/-! ### Helper lemmas about the double write loop of `tick` -/

lemma writeCell_length (u : Universe) (row : Nat) (next : List Cell)
    (column : Nat) : (writeCell u row next column).length = next.length := by
  simp [writeCell]

lemma foldl_writeCell_length (u : Universe) (row : Nat) (cols : List Nat)
    (next : List Cell) :
    (cols.foldl (writeCell u row) next).length = next.length := by
  induction cols generalizing next with
  | nil => rfl
  | cons c t ih => rw [List.foldl_cons, ih, writeCell_length]

lemma writeRow_length (u : Universe) (next : List Cell) (row : Nat) :
    (writeRow u next row).length = next.length := by
  unfold writeRow
  exact foldl_writeCell_length u row (List.range u.width) next

lemma foldl_writeRow_length (u : Universe) (rows : List Nat)
    (next : List Cell) :
    (rows.foldl (writeRow u) next).length = next.length := by
  induction rows generalizing next with
  | nil => rfl
  | cons r t ih => rw [List.foldl_cons, ih, writeRow_length]

lemma tick_cells_length (u : Universe) :
    (u.tick).cells.length = u.cells.length := by
  unfold Universe.tick
  exact foldl_writeRow_length u (List.range u.height) u.cells

lemma foldl_writeCell_getElem? (u : Universe) (row : Nat) (cols : List Nat)
    (next : List Cell) (j : Nat) :
    (cols.foldl (writeCell u row) next)[j]? =
      if (∃ c ∈ cols, j = row * u.width + c) ∧ j < next.length
      then some (u.nextCellAt row (j - row * u.width))
      else next[j]? := by
  induction cols generalizing next with
  | nil => simp
  | cons c t ih =>
    rw [List.foldl_cons, ih, writeCell_length]
    by_cases h1 : (∃ x ∈ t, j = row * u.width + x) ∧ j < next.length
    · rw [if_pos h1, if_pos
        ⟨h1.1.imp (fun x hx => ⟨List.mem_cons_of_mem c hx.1, hx.2⟩), h1.2⟩]
    · rw [if_neg h1]
      unfold writeCell
      by_cases h2 : j = row * u.width + c
      · by_cases hj : j < next.length
        · rw [if_pos ⟨⟨c, List.mem_cons_self c t, h2⟩, hj⟩]
          have hidx : u.get_index row c = j := h2.symm
          rw [hidx, List.getElem?_set_self hj]
          have hsub : j - row * u.width = c := by omega
          rw [hsub]
        · rw [if_neg (fun hcon => hj hcon.2)]
          have hle : next.length ≤ u.get_index row c := by
            have : u.get_index row c = row * u.width + c := rfl
            omega
          rw [List.set_eq_of_length_le hle]
      · rw [if_neg ?_]
        · have hne : u.get_index row c ≠ j := by
            have : u.get_index row c = row * u.width + c := rfl
            omega
          rw [List.getElem?_set_ne hne]
        · rintro ⟨⟨x, hx, hjx⟩, hjl⟩
          rcases List.mem_cons.mp hx with hxc | hxt
          · exact h2 (hxc ▸ hjx)
          · exact h1 ⟨⟨x, hxt, hjx⟩, hjl⟩

lemma foldl_writeRow_getElem? (u : Universe) (rows : List Nat)
    (next : List Cell) (j : Nat) :
    (rows.foldl (writeRow u) next)[j]? =
      if (∃ r ∈ rows, ∃ c, c < u.width ∧ j = r * u.width + c) ∧ j < next.length
      then some (u.nextCellAt (j / u.width) (j % u.width))
      else next[j]? := by
  induction rows generalizing next with
  | nil => simp
  | cons r t ih =>
    rw [List.foldl_cons, ih, writeRow_length]
    by_cases h1 : (∃ x ∈ t, ∃ c, c < u.width ∧ j = x * u.width + c) ∧
        j < next.length
    · rw [if_pos h1, if_pos
        ⟨h1.1.imp (fun x hx => ⟨List.mem_cons_of_mem r hx.1, hx.2⟩), h1.2⟩]
    · rw [if_neg h1]
      unfold writeRow
      rw [foldl_writeCell_getElem? u r (List.range u.width) next j]
      by_cases h2 : (∃ c ∈ List.range u.width, j = r * u.width + c) ∧
          j < next.length
      · obtain ⟨⟨c, hcr, hjc⟩, hjl⟩ := h2
        have hcw : c < u.width := List.mem_range.mp hcr
        rw [if_pos ⟨⟨c, hcr, hjc⟩, hjl⟩,
          if_pos ⟨⟨r, List.mem_cons_self r t, c, hcw, hjc⟩, hjl⟩]
        have hdiv : j / u.width = r := by
          rw [hjc, Nat.mul_comm r u.width, Nat.mul_add_div (by omega),
            Nat.div_eq_of_lt hcw, Nat.add_zero]
        have hmod : j % u.width = c := by
          rw [hjc, Nat.mul_comm r u.width, Nat.mul_add_mod,
            Nat.mod_eq_of_lt hcw]
        have hsub : j - r * u.width = c := by omega
        rw [hdiv, hmod, hsub]
      · rw [if_neg h2, if_neg ?_]
        rintro ⟨⟨x, hx, c, hcw, hjc⟩, hjl⟩
        rcases List.mem_cons.mp hx with hxr | hxt
        · exact h2 ⟨⟨c, List.mem_range.mpr hcw, hxr ▸ hjc⟩, hjl⟩
        · exact h1 ⟨⟨x, hxt, c, hcw, hjc⟩, hjl⟩

lemma tick_cells_getElem? (u : Universe)
    (hlen : u.cells.length = u.width * u.height) (row column : Nat)
    (hr : row < u.height) (hc : column < u.width) :
    (u.tick).cells[u.get_index row column]? = some (u.nextCellAt row column) := by
  have hidx : u.get_index row column = row * u.width + column := rfl
  have hjlen : u.get_index row column < u.cells.length := by
    rw [hidx, hlen]
    calc row * u.width + column < row * u.width + u.width := by omega
    _ = (row + 1) * u.width := (Nat.succ_mul row u.width).symm
    _ ≤ u.height * u.width := Nat.mul_le_mul_right u.width hr
    _ = u.width * u.height := Nat.mul_comm u.height u.width
  unfold Universe.tick
  rw [foldl_writeRow_getElem?, if_pos
    ⟨⟨row, List.mem_range.mpr hr, column, hc, hidx⟩, hjlen⟩]
  have hdiv : u.get_index row column / u.width = row := by
    rw [hidx, Nat.mul_comm row u.width, Nat.mul_add_div (by omega),
      Nat.div_eq_of_lt hc, Nat.add_zero]
  have hmod : u.get_index row column % u.width = column := by
    rw [hidx, Nat.mul_comm row u.width, Nat.mul_add_mod, Nat.mod_eq_of_lt hc]
  rw [hdiv, hmod]

/-! ### Helper lemmas about rendering -/

lemma chunksOf_nil (w : Nat) : chunksOf w [] = [] := by
  rw [chunksOf]
  simp

lemma chunksOf_step {w : Nat} {l : List Cell} (hw : 0 < w) (hl : l ≠ []) :
    chunksOf w l = l.take w :: chunksOf w (l.drop w) := by
  rw [chunksOf]
  rw [dif_neg]
  push_neg
  exact ⟨by omega, hl⟩

lemma renderList_nil (w : Nat) : renderList w [] = [] := by
  simp [renderList, chunksOf_nil]

lemma renderList_step {w : Nat} {l : List Cell} (hw : 0 < w) (hl : l ≠ []) :
    renderList w l =
      (l.take w).map cellGlyph ++ '\n' :: renderList w (l.drop w) := by
  unfold renderList
  rw [chunksOf_step hw hl]
  simp

lemma renderList_length {w : Nat} (hw : 0 < w) :
    ∀ (h : Nat) (l : List Cell), l.length = h * w →
      (renderList w l).length = h * (w + 1) := by
  intro h
  induction h with
  | zero =>
    intro l hl
    have : l = [] := List.length_eq_zero.mp (by omega)
    rw [this, renderList_nil]
    simp
  | succ h ih =>
    intro l hl
    have hlpos : 0 < l.length := by
      rw [hl]
      have : 1 * w ≤ (h + 1) * w := Nat.mul_le_mul_right w (by omega)
      omega
    have hlne : l ≠ [] := by
      intro hcon
      rw [hcon] at hlpos
      simp at hlpos
    rw [renderList_step hw hlne]
    have hdrop : (l.drop w).length = h * w := by
      rw [List.length_drop, hl, Nat.succ_mul]
      omega
    have htake : ((l.take w).map cellGlyph).length = w := by
      rw [List.length_map, List.length_take, hl]
      have : 1 * w ≤ (h + 1) * w := Nat.mul_le_mul_right w (by omega)
      omega
    rw [List.length_append, htake, List.length_cons, ih (l.drop w) hdrop]
    ring

lemma renderList_drop {w : Nat} (hw : 0 < w) :
    ∀ (r h : Nat) (l : List Cell), l.length = h * w → r ≤ h →
      (renderList w l).drop (r * (w + 1)) = renderList w (l.drop (r * w)) := by
  intro r
  induction r with
  | zero => intro h l _ _; simp
  | succ r ih =>
    intro h l hl hr
    have hl1 : 1 * w ≤ h * w := Nat.mul_le_mul_right w (by omega)
    have hlne : l ≠ [] := by
      intro hcon
      rw [hcon] at hl
      simp at hl
      omega
    have hstep := renderList_step hw hlne
    have htake : ((l.take w).map cellGlyph ++ ['\n']).length = w + 1 := by
      rw [List.length_append, List.length_map, List.length_take, hl]
      simp
      omega
    have harith : (r + 1) * (w + 1) = (w + 1) + r * (w + 1) := by ring
    rw [harith, ← List.drop_drop, hstep]
    have hassoc : (l.take w).map cellGlyph ++ '\n' :: renderList w (l.drop w) =
        ((l.take w).map cellGlyph ++ ['\n']) ++ renderList w (l.drop w) := by
      simp
    rw [hassoc, List.drop_left' htake]
    have hdroplen : (l.drop w).length = (h - 1) * w := by
      rw [List.length_drop, hl, Nat.sub_one_mul]
    rw [ih (h - 1) (l.drop w) hdroplen (by omega), List.drop_drop]
    have : w + r * w = (r + 1) * w := by ring
    rw [this]

lemma renderList_row {w h r : Nat} {l : List Cell} (hw : 0 < w)
    (hl : l.length = h * w) (hr : r < h) :
    ((renderList w l).drop (r * (w + 1))).take (w + 1) =
      ((l.drop (r * w)).take w).map cellGlyph ++ ['\n'] := by
  rw [renderList_drop hw r h l hl (le_of_lt hr)]
  have hlen' : (l.drop (r * w)).length = (h - r) * w := by
    rw [List.length_drop, hl, Nat.sub_mul]
  have hge : w ≤ (l.drop (r * w)).length := by
    rw [hlen']
    have : 1 * w ≤ (h - r) * w := Nat.mul_le_mul_right w (by omega)
    omega
  have hne : l.drop (r * w) ≠ [] := by
    intro hcon
    rw [hcon] at hge
    simp at hge
    omega
  rw [renderList_step hw hne]
  have hassoc : ((l.drop (r * w)).take w).map cellGlyph ++
      '\n' :: renderList w ((l.drop (r * w)).drop w) =
      (((l.drop (r * w)).take w).map cellGlyph ++ ['\n']) ++
        renderList w ((l.drop (r * w)).drop w) := by
    simp
  rw [hassoc]
  apply List.take_left'
  rw [List.length_append, List.length_map, List.length_take]
  rw [List.length_drop] at hge
  simp only [List.length_drop, List.length_cons, List.length_nil]
  omega

/-! ### Helper lemmas about `Universe::new` -/

lemma new_cells_length : Universe.new.cells.length = 64 * 64 := by
  simp [Universe.new]

set_option maxRecDepth 100000 in
lemma new_cells_getD (i : Nat) (hi : i < 64 * 64) :
    Universe.new.cells.getD i Cell.Dead =
      (if i % 2 = 0 ∨ i % 7 = 0 then Cell.Alive else Cell.Dead) := by
  have hrep : Universe.new.cells =
      (List.range (64 * 64)).map
        (fun i => if i % 2 = 0 ∨ i % 7 = 0 then Cell.Alive else Cell.Dead) := rfl
  rw [hrep, List.getD_eq_getElem?_getD, List.getElem?_map,
    List.getElem?_range hi]
  rfl

lemma get_index_lt (u : Universe) {r c : Nat} (hr : r < u.height)
    (hc : c < u.width) : u.get_index r c < u.width * u.height := by
  have hidx : u.get_index r c = r * u.width + c := rfl
  calc u.get_index r c = r * u.width + c := hidx
  _ < r * u.width + u.width := by omega
  _ = (r + 1) * u.width := (Nat.succ_mul r u.width).symm
  _ ≤ u.height * u.width := Nat.mul_le_mul_right u.width hr
  _ = u.width * u.height := Nat.mul_comm u.height u.width

/-! ### Claim theorems -/

/-- C1 (code bug): the claim states that `live_neighbor_count(row, column)`
equals the number of `Alive` cells among the 8 toroidal neighbours.  The
source computes `neighbour_column` from `delta_row` instead of
`delta_column` (line 56), so on the 3 × 3 grid whose only live cell is
`(0, 1)` — a direct neighbour of `(0, 0)` — the code returns 0 at `(0, 0)`
while the spec's formula gives 1. -/
theorem c1_neighbor_count_bug_eval :
    u3b.live_neighbor_count 0 0 = 0 ∧
    live_neighbor_count_specFormula u3b 0 0 = 1 := by decide

/-- C2: after one `tick()`, the cell at each in-range `(row, column)` equals
the transition-table rule applied to that cell's state and its
`live_neighbor_count`, both taken from the unmodified pre-tick grid — the
right-hand side reads only `u`, the pre-tick universe, even though the loop
writes earlier cells of the new buffer first, because `tick` reads
`self.cells` and writes the separate buffer `next`. -/
theorem c2_tick_applies_rule_to_pretick_state (u : Universe)
    (hlen : u.cells.length = u.width * u.height) (row column : Nat)
    (hr : row < u.height) (hc : column < u.width) :
    (u.tick).cells[u.get_index row column]? =
      some (nextCellRule (u.cells.getD (u.get_index row column) Cell.Dead)
        (u.live_neighbor_count row column)) :=
  tick_cells_getElem? u hlen row column hr hc

/-- C2 witness: on the 3 × 3 grid whose only live cell is `(0, 0)`, the
post-tick cell at flat index 0 is what the rule computes (here `Alive`,
because the buggy neighbour count of the lone live cell is 2). -/
theorem c2_witness : (u3.tick).cells[0]? = some Cell.Alive := by
  have h := c2_tick_applies_rule_to_pretick_state u3 (by decide) 0 0
    (by decide) (by decide)
  exact h.trans (by decide)

/-- C3 (code bug): the claim states that a lone live cell dies after one
`tick()` (underpopulation).  Because of the `delta_row`/`delta_column` typo
the lone live cell at `(0, 0)` of a 3 × 3 grid counts itself twice, its
neighbour count is 2, and it survives the tick. -/
theorem c3_lone_live_cell_survives_eval :
    u3.live_neighbor_count 0 0 = 2 ∧
    (u3.tick).cells.getD 0 Cell.Dead = Cell.Alive := by decide

/-- C4: `new()` returns a 64 × 64 universe with 64 * 64 cells, cell `i`
being `Alive` iff `i % 2 == 0 || i % 7 == 0`. -/
theorem c4_new_seeding :
    Universe.new.width = 64 ∧ Universe.new.height = 64 ∧
    Universe.new.cells.length = 64 * 64 ∧
    ∀ i : Nat, i < 64 * 64 →
      Universe.new.cells.getD i Cell.Dead =
        (if i % 2 = 0 ∨ i % 7 = 0 then Cell.Alive else Cell.Dead) :=
  ⟨rfl, rfl, new_cells_length, fun i hi => new_cells_getD i hi⟩

/-- C4 witness: index 0 of the seeded grid is `Alive`, index 9 is `Dead`. -/
theorem c4_witness :
    Universe.new.cells.getD 0 Cell.Dead = Cell.Alive ∧
    Universe.new.cells.getD 9 Cell.Dead = Cell.Dead := by
  constructor
  · exact (c4_new_seeding.2.2.2 0 (by norm_num)).trans (by decide)
  · exact (c4_new_seeding.2.2.2 9 (by norm_num)).trans (by decide)

/-- C5: `render()` produces `height * (width + 1)` characters; the `r`-th
`(width + 1)`-character block is exactly the glyphs of row `r` of the cell
sequence (`◼` for `Alive`, `◻` for `Dead`, via `cellGlyph`) followed by a
newline — so each of the `height` rows, the last included, is `width` glyphs
terminated by a line break.  `render` is a pure function of the grid. -/
theorem c5_render_shape (u : Universe) (hw : 0 < u.width)
    (hlen : u.cells.length = u.width * u.height) :
    (u.render).data.length = u.height * (u.width + 1) ∧
    ∀ r : Nat, r < u.height →
      ((u.render).data.drop (r * (u.width + 1))).take (u.width + 1) =
        ((u.cells.drop (r * u.width)).take u.width).map cellGlyph ++ ['\n'] := by
  have hdata : (u.render).data = renderList u.width u.cells := rfl
  constructor
  · rw [hdata]
    exact renderList_length hw u.height u.cells (by rw [hlen]; ring)
  · intro r hr
    rw [hdata]
    exact renderList_row hw (by rw [hlen]; ring) hr

/-- C5 witness: the 3 × 3 grid renders as 12 characters whose first 4 are
the glyphs of row 0 followed by a newline. -/
theorem c5_witness :
    (u3.render).data.length = 12 ∧
    ((u3.render).data.drop 0).take 4 =
      ((u3.cells.drop 0).take 3).map cellGlyph ++ ['\n'] := by
  obtain ⟨h1, h2⟩ := c5_render_shape u3 (by decide) (by decide)
  exact ⟨h1, h2 0 (by decide)⟩

/-- C6 counterexample: the claim states that `get_index` with an
out-of-range coordinate fails fast.  In the source `get_index` has no check
at all: on the 64 × 64 default grid, the out-of-range call
`get_index(0, 64)` (column = width) silently returns 64, an in-bounds index
that aliases the distinct cell `(1, 0)`. -/
theorem c6_counterexample :
    Universe.new.width = 64 ∧ Universe.new.get_index 0 64 = 64 ∧
    Universe.new.get_index 0 64 = Universe.new.get_index 1 0 ∧
    Universe.new.get_index 0 64 < Universe.new.cells.length := by
  refine ⟨rfl, rfl, rfl, ?_⟩
  rw [new_cells_length]
  decide

/-- C6 amended: `get_index` does not fail fast on an out-of-range
coordinate — the out-of-range call `get_index(0, width)` (column = width)
returns normally, and on any grid with at least two rows its result is the
in-bounds index `width`, the same index the in-range call `get_index(1, 0)`
yields, silently aliasing a different cell.  (Both index values equal the
`u32` value `width`, so `u32` and `Nat` arithmetic agree here.) -/
theorem c6_amended_column_overflow_aliases (u : Universe)
    (hlen : u.cells.length = u.width * u.height) (hw : 0 < u.width)
    (hh : 2 ≤ u.height) :
    u.get_index 0 u.width = u.get_index 1 0 ∧
    u.get_index 0 u.width < u.cells.length := by
  have h0 : u.get_index 0 u.width = u.width := by
    show 0 * u.width + u.width = u.width
    ring
  have h1 : u.get_index 1 0 = u.width := by
    show 1 * u.width + 0 = u.width
    ring
  refine ⟨h0.trans h1.symm, ?_⟩
  rw [h0, hlen]
  calc u.width < u.width * 2 := by omega
  _ ≤ u.width * u.height := Nat.mul_le_mul_left u.width hh

/-- C6 witness: on the 64 × 64 grid the out-of-range call
`get_index(0, 64)` returns the same in-bounds index as `get_index(1, 0)`. -/
theorem c6_witness :
    Universe.new.get_index 0 Universe.new.width =
      Universe.new.get_index 1 0 ∧
    Universe.new.get_index 0 Universe.new.width <
      Universe.new.cells.length :=
  c6_amended_column_overflow_aliases Universe.new
    (by rw [new_cells_length]; decide) (by decide) (by decide)

/-- C7: an all-`Dead` grid is a fixed point of `tick()`: no spontaneous
generation (this holds even with the neighbour-count bug, since every
sampled cell is `Dead`, so every count is 0 and every `Dead` cell stays
`Dead`). -/
theorem c7_all_dead_fixed_point (u : Universe)
    (hdead : ∀ x ∈ u.cells, x = Cell.Dead) : u.tick = u := by
  have hcells : (u.tick).cells = u.cells := by
    apply List.ext_getElem?
    intro j
    show ((List.range u.height).foldl (writeRow u) u.cells)[j]? = u.cells[j]?
    rw [foldl_writeRow_getElem?]
    split_ifs with hcond
    · have hj : j < u.cells.length := hcond.2
      have hjd : u.cells[j]? = some Cell.Dead := by
        rw [List.getElem?_eq_getElem hj]
        exact congrArg some (hdead _ (List.getElem_mem hj))
      rw [hjd]
      unfold Universe.nextCellAt
      rw [getD_all_dead hdead, live_neighbor_count_all_dead u hdead]
      decide
    · rfl
  calc u.tick = ⟨u.width, u.height, (u.tick).cells⟩ := rfl
  _ = ⟨u.width, u.height, u.cells⟩ := by rw [hcells]
  _ = u := rfl

/-- C7 witness: the all-dead 2 × 2 grid is unchanged by `tick`. -/
theorem c7_witness : u2.tick = u2 :=
  c7_all_dead_fixed_point u2 (by decide)

/-- C8: two-run determinism — two grids both built by the parameterless
constructor `new()` (whose seeding is a fixed pattern with no randomness)
and ticked the same number of times have identical cell sequences. -/
theorem c8_deterministic_runs (ua ub : Universe) (n : Nat)
    (ha : ua = Universe.new) (hb : ub = Universe.new) :
    (Universe.tick^[n] ua).cells = (Universe.tick^[n] ub).cells := by
  subst ha
  subst hb
  rfl

/-- C8 witness: the two runs agree after 0 ticks. -/
theorem c8_witness :
    (Universe.tick^[0] Universe.new).cells =
      (Universe.tick^[0] Universe.new).cells :=
  c8_deterministic_runs Universe.new Universe.new 0 rfl rfl

/-- C9: `new()` establishes `cells.length = width * height`; `tick()`
leaves `width`, `height` and the cell-sequence length unchanged, hence
preserves the invariant. -/
theorem c9_invariants :
    Universe.new.cells.length = Universe.new.width * Universe.new.height ∧
    ∀ u : Universe, (u.tick).width = u.width ∧ (u.tick).height = u.height ∧
      (u.tick).cells.length = u.cells.length ∧
      (u.cells.length = u.width * u.height →
        (u.tick).cells.length = (u.tick).width * (u.tick).height) := by
  constructor
  · rw [new_cells_length]
    decide
  · intro u
    refine ⟨rfl, rfl, tick_cells_length u, fun h => ?_⟩
    rw [tick_cells_length u, h]
    rfl

/-- C9 witness: the invariant is preserved across a tick of the 2 × 2
grid. -/
theorem c9_witness :
    (u2.tick).cells.length = (u2.tick).width * (u2.tick).height :=
  (c9_invariants.2 u2).2.2.2 (by decide)

/-- C10: for an in-range call on a well-formed grid, every flat index at
which `live_neighbor_count` reads the cell vector is in bounds, the `u8`
accumulator never overflows (the `% 256`-wrapped computation coincides with
the unbounded one), and the result is at most 8. -/
theorem c10_neighbor_count_safety (u : Universe) (row column : Nat)
    (hw : 0 < u.width) (hh : 0 < u.height)
    (hlen : u.cells.length = u.width * u.height)
    (_hr : row < u.height) (_hc : column < u.width) :
    (∀ i ∈ u.accessedIndices row column, i < u.cells.length) ∧
    u.live_neighbor_count row column =
      u.live_neighbor_count_nowrap row column ∧
    u.live_neighbor_count row column ≤ 8 := by
  refine ⟨?_, live_neighbor_count_eq_nowrap u row column,
    live_neighbor_count_le_eight u row column⟩
  intro i hi
  unfold Universe.accessedIndices at hi
  rw [List.mem_flatten] at hi
  obtain ⟨lst, hlst, hilst⟩ := hi
  rw [List.mem_map] at hlst
  obtain ⟨dr, _, rfl⟩ := hlst
  rw [List.mem_filterMap] at hilst
  obtain ⟨dc, _, hgc⟩ := hilst
  by_cases hskip : dr = 0 ∧ dc = 0
  · rw [if_pos hskip] at hgc
    exact absurd hgc (by simp)
  · rw [if_neg hskip] at hgc
    obtain rfl : u.get_index ((row + dr) % u.height) ((column + dr) % u.width)
        = i := Option.some.inj hgc
    rw [hlen]
    exact get_index_lt u (Nat.mod_lt _ hh) (Nat.mod_lt _ hw)

/-- C10 witness: at `(0, 0)` of the 3 × 3 grid the count is wrap-free and
at most 8, and the accessed index `get_index(2, 2) = 8` is in bounds. -/
theorem c10_witness :
    u3.live_neighbor_count 0 0 = u3.live_neighbor_count_nowrap 0 0 ∧
    u3.live_neighbor_count 0 0 ≤ 8 ∧
    u3.get_index 2 2 < u3.cells.length := by
  obtain ⟨h1, h2, h3⟩ := c10_neighbor_count_safety u3 0 0 (by decide)
    (by decide) (by decide) (by decide) (by decide)
  exact ⟨h2, h3, h1 (u3.get_index 2 2) (by decide)⟩
